import Mathlib

/-
Verification of the document-QA pipeline of
skc-charchit/LLM_Questiona_Answering_Application.

Shallow embedding of the core modules:
  - src/tasks/loader.py      (DocumentLoader: load_document, load_from_text,
                              load_from_url, split_documents)
  - src/tasks/embeddings.py  (EmbeddingManager: create/save/load vector store)
  - src/pipelines/qa_chain.py (QAChain and its window memory)
  - src/app.py               (PDFQAApp: init, setup_ui, handle_user_input)

External capabilities (remote loaders, embedding and generation services,
the filesystem) are passed in as explicit function arguments; Python
exceptions are modelled with Except String.
-/

/-! ## Basic string machinery (substring / suffix tests used by the code) -/

/-- Does the first list occur at the head of the second? -/
def leadsWith : List Char → List Char → Bool
  | [], _ => true
  | _ :: _, [] => false
  | a :: as, b :: bs => a == b && leadsWith as bs

/-- Does `needle` occur contiguously anywhere in `hay`?
Models Python's `needle in hay` on strings. -/
def listContainsSeq : List Char → List Char → Bool
  | [], needle => needle.isEmpty
  | h :: t, needle => leadsWith needle (h :: t) || listContainsSeq t needle

/-- Python `needle in hay` for strings. -/
def strContainsSeq (hay needle : String) : Bool :=
  listContainsSeq hay.toList needle.toList

/-- Python `s.endswith(suffixStr)`. -/
def strEndsWith (s suffixStr : String) : Bool :=
  leadsWith suffixStr.toList.reverse s.toList.reverse

theorem leadsWith_refl (l : List Char) : leadsWith l l = true := by
  induction l with
  | nil => rfl
  | cons a as ih => simp [leadsWith, ih]

theorem listContainsSeq_append (a b : List Char) :
    listContainsSeq (a ++ b) b = true := by
  induction a with
  | nil =>
    cases b with
    | nil => rfl
    | cons h t => simp [listContainsSeq, leadsWith_refl]
  | cons x xs ih => simp [listContainsSeq, ih]

/-! ## Data model: langchain_core.documents.Document -/

/-- `langchain_core.documents.Document`: page content plus a metadata
mapping (modelled as an association list of string scalars). -/
structure Document where
  page_content : String
  metadata : List (String × String)
  deriving DecidableEq, Repr

/-! ## DocumentLoader.load_from_text (loader.py lines 127-148) -/

/-- `DocumentLoader.load_from_text(text, metadata=None)`: when `metadata`
is `None` it defaults to `{"source": "user_input"}`; a single Document is
built from the text and that metadata and returned in a one-element list. -/
def load_from_text (text : String) (metadata : Option (List (String × String))) :
    List Document :=
  let md := match metadata with
    | none => [("source", "user_input")]
    | some m => m
  [{ page_content := text, metadata := md }]

/-! ## DocumentLoader.load_document extension inference (loader.py 44-93) -/

/-- Characters of the path after the last `/` (the basename), as in
`os.path`. -/
def afterLastSlash : List Char → List Char
  | [] => []
  | c :: rest =>
    if (c :: rest).contains '/' then afterLastSlash rest else c :: rest

/-- The suffix of the list starting at its last `.`, or `[]` if there is
no dot. -/
def lastDotSuffix : List Char → List Char
  | [] => []
  | c :: rest =>
    let s := lastDotSuffix rest
    if s.isEmpty then (if c == '.' then c :: rest else []) else s

/-- `os.path.splitext(path)[1]`: the extension (with its dot) of the
basename, empty when the basename has no dot or only leading dots before
the last dot. -/
def splitextExt (path : String) : String :=
  let name := afterLastSlash path.toList
  let suff := lastDotSuffix name
  let pre := name.take (name.length - suff.length)
  if pre.any (fun c => c != '.') then String.mk suff else ""

/-- Python's `str.lower()` as used on file extensions (ASCII lowercasing,
character by character; extensions compared by the code are ASCII). -/
def strToLower (s : String) : String :=
  String.mk (s.toList.map Char.toLower)

/-- The supported extensions of `DocumentLoader.load_document` (loader.py
lines 52-65). -/
def supportedExtensions : List String :=
  [".pdf", ".txt", ".text", ".md", ".markdown", ".docx", ".doc",
   ".csv", ".xlsx", ".xls", ".pptx", ".ppt", ".html", ".htm"]

/-- loader.py lines 50-67: infer `file_type` from the (lowercased)
extension; unsupported extensions raise
`ValueError(f"Unsupported file extension: {file_extension}")`. -/
def inferFileType (file_extension : String) : Except String String :=
  if file_extension = ".pdf" then .ok "pdf"
  else if [".txt", ".text", ".md", ".markdown"].contains file_extension then .ok "txt"
  else if [".docx", ".doc"].contains file_extension then .ok "docx"
  else if file_extension = ".csv" then .ok "csv"
  else if [".xlsx", ".xls"].contains file_extension then .ok "xlsx"
  else if [".pptx", ".ppt"].contains file_extension then .ok "pptx"
  else if [".html", ".htm"].contains file_extension then .ok "html"
  else .error ("Unsupported file extension: " ++ file_extension)

/-- `DocumentLoader.load_document(file_path)` with `file_type=None`
(loader.py lines 31-93): the extension is computed with
`os.path.splitext(...)[1].lower()` (prefixing the project root for a
relative path does not change the extension, so the path is used as-is
here), the file type is inferred, and the matching concrete loader
(`loadWith`, an external capability keyed by the inferred type) produces
the documents. -/
def load_document (loadWith : String → List Document) (file_path : String) :
    Except String (List Document) :=
  match inferFileType (strToLower (splitextExt file_path)) with
  | .error e => .error e
  | .ok t => .ok (loadWith t)

/-! ## Theorems for C7, C10, C3 -/

/-- C7: `load_from_text(text)` (metadata omitted, i.e. `None`) always
succeeds and returns exactly one Document whose content is the given text
and whose metadata has `source = "user_input"`. -/
theorem c7_load_from_text_default (text : String) :
    load_from_text text none
        = [{ page_content := text, metadata := [("source", "user_input")] }]
      ∧ (load_from_text text none).length = 1
      ∧ (load_from_text text none).map (fun d => d.page_content) = [text]
      ∧ (load_from_text text none).map (fun d => d.metadata.lookup "source")
        = [some "user_input"] := by
  refine ⟨rfl, rfl, rfl, rfl⟩

/-- C10: with caller-supplied metadata `m` (not `None`),
`load_from_text(text, metadata=m)` returns a single Document whose
metadata is exactly `m`: no `source` key is added, so the default
`source = "user_input"` is attached only in the `None` case; looking up
`source` in the result is the same as looking it up in `m` itself. -/
theorem c10_load_from_text_explicit_metadata
    (text : String) (m : List (String × String)) :
    load_from_text text (some m) = [{ page_content := text, metadata := m }]
      ∧ (load_from_text text (some m)).map (fun d => d.metadata.lookup "source")
        = [m.lookup "source"] := by
  exact ⟨rfl, rfl⟩

/-- C3: when `file_type` is omitted and the lowercased extension of the
path is not one of the supported extensions, `load_document` fails with a
`ValueError` whose message names the offending extension, and no
Documents are returned. -/
theorem c3_unsupported_extension (loadWith : String → List Document)
    (file_path : String)
    (h : strToLower (splitextExt file_path) ∉ supportedExtensions) :
    load_document loadWith file_path
        = .error ("Unsupported file extension: " ++ strToLower (splitextExt file_path))
      ∧ strContainsSeq ("Unsupported file extension: " ++ strToLower (splitextExt file_path))
          (strToLower (splitextExt file_path)) = true
      ∧ ∀ docs : List Document, load_document loadWith file_path ≠ .ok docs := by
  have hmsg : strContainsSeq ("Unsupported file extension: " ++ strToLower (splitextExt file_path))
      (strToLower (splitextExt file_path)) = true := by
    unfold strContainsSeq
    have hdat : ("Unsupported file extension: " ++ strToLower (splitextExt file_path)).toList
        = "Unsupported file extension: ".toList ++ (strToLower (splitextExt file_path)).toList :=
      String.data_append _ _
    rw [hdat]
    exact listContainsSeq_append _ _
  simp only [supportedExtensions, List.mem_cons, List.not_mem_nil, or_false] at h
  push_neg at h
  obtain ⟨h1, h2, h3, h4, h5, h6, h7, h8, h9, h10, h11, h12, h13, h14⟩ := h
  have herr : inferFileType (strToLower (splitextExt file_path))
      = .error ("Unsupported file extension: " ++ strToLower (splitextExt file_path)) := by
    unfold inferFileType
    simp [h1, h2, h3, h4, h5, h6, h7, h8, h9, h10, h11, h12, h13, h14]
  refine ⟨?_, hmsg, ?_⟩
  · unfold load_document
    rw [herr]
  · intro docs
    unfold load_document
    rw [herr]
    intro hco
    exact Except.noConfusion hco

/-- C3 witness: the path `"malware.exe"` has unsupported extension
`".exe"` and `load_document` rejects it with a message naming `".exe"`. -/
theorem c3_unsupported_extension_witness :
    (strToLower (splitextExt "malware.exe") ∉ supportedExtensions)
      ∧ load_document (fun _ => []) "malware.exe"
          = .error ("Unsupported file extension: " ++ strToLower (splitextExt "malware.exe")) :=
  ⟨by decide, (c3_unsupported_extension (fun _ => []) "malware.exe" (by decide)).1⟩

/-! ## PDFQAApp.handle_user_input (app.py lines 165-217): the ask loop -/

/-- app.py line 202: the advisory shown on rate-limit/quota errors. -/
def rateLimitAdvisory : String :=
  "⚠️ API rate limit exceeded. Please try again later or reduce your usage."

/-- app.py line 192: fallback when the chain response has no "answer" key. -/
def noAnswerFallback : String :=
  "I couldn't find an answer to that question in the document."

/-- app.py line 201: `"429" in error_message or "quota" in error_message.lower()`. -/
def isRateLimitError (error_message : String) : Bool :=
  strContainsSeq error_message "429" || strContainsSeq (strToLower error_message) "quota"

/-- app.py line 208: the generic failure text for non-rate-limit errors. -/
def genericFailureText (error_message : String) : String :=
  "Error generating response: " ++ error_message

/-- The question branch of `PDFQAApp.handle_user_input` (app.py lines
182-212).  The conversation chain call `conversation({"question": q})`
followed by `response.get("answer", ...)` is modelled by `conv`, which
either raises (`Except.error` with the exception's message) or returns
the optional value of the response's "answer" key.  Returns the string
displayed to the user and the updated `chat_history`. -/
def handle_user_input (conv : String → Except String (Option String))
    (chat_history : List (String × String)) (user_question : String) :
    String × List (String × String) :=
  match conv user_question with
  | .ok ans? =>
    let answer := ans?.getD noAnswerFallback
    (answer, chat_history ++ [(user_question, answer)])
  | .error error_message =>
    if isRateLimitError error_message then
      (rateLimitAdvisory, chat_history ++ [(user_question, rateLimitAdvisory)])
    else
      (genericFailureText error_message,
       chat_history ++ [(user_question, genericFailureText error_message)])

/-- C1: `handle_user_input` never propagates an exception (it is a total
function into displayed string × history); in all cases the history grows
by exactly one entry, pairing the question with the displayed string; a
rate-limit-flavoured generation error (message containing "429", or
"quota" after lowercasing) yields the rate-limit advisory, any other
generation error yields the generic failure message, and a successful
generation yields the answer (or the no-answer fallback when the response
lacks an "answer" key). -/
theorem c1_ask_absorbs_errors (conv : String → Except String (Option String))
    (chat_history : List (String × String)) (user_question : String) :
    (handle_user_input conv chat_history user_question).2.length
        = chat_history.length + 1
      ∧ (handle_user_input conv chat_history user_question).2
        = chat_history
            ++ [(user_question, (handle_user_input conv chat_history user_question).1)]
      ∧ (∀ e, conv user_question = .error e → isRateLimitError e = true →
          (handle_user_input conv chat_history user_question).1 = rateLimitAdvisory)
      ∧ (∀ e, conv user_question = .error e → isRateLimitError e = false →
          (handle_user_input conv chat_history user_question).1 = genericFailureText e)
      ∧ (∀ a, conv user_question = .ok a →
          (handle_user_input conv chat_history user_question).1
            = a.getD noAnswerFallback) := by
  cases hc : conv user_question with
  | ok a =>
    simp only [handle_user_input, hc]
    refine ⟨by simp, by trivial, ?_, ?_, ?_⟩
    · intro e he
      exact absurd he (by simp)
    · intro e he
      exact absurd he (by simp)
    · intro a' ha
      simp only [Except.ok.injEq] at ha
      rw [ha]
  | error e =>
    simp only [handle_user_input, hc]
    by_cases hrl : isRateLimitError e = true
    · rw [if_pos hrl]
      refine ⟨by simp, by trivial, ?_, ?_, ?_⟩
      · intro e' _ _
        rfl
      · intro e' he' hf
        simp only [Except.error.injEq] at he'
        rw [← he'] at hf
        rw [hrl] at hf
        exact absurd hf (by simp)
      · intro a' ha
        exact absurd ha (by simp)
    · rw [if_neg hrl]
      rw [Bool.not_eq_true] at hrl
      refine ⟨by simp, by trivial, ?_, ?_, ?_⟩
      · intro e' he' ht
        simp only [Except.error.injEq] at he'
        rw [← he'] at ht
        rw [hrl] at ht
        exact absurd ht (by simp)
      · intro e' he' _
        simp only [Except.error.injEq] at he'
        rw [he']
      · intro a' ha
        exact absurd ha (by simp)

/-- C1 witness: a generation capability throwing an HTTP 429 error makes
`handle_user_input` return the rate-limit advisory and grow an empty
history to length one. -/
theorem c1_ask_absorbs_errors_witness :
    (handle_user_input (fun _ => .error "HTTP 429 Too Many Requests") [] "hi").1
        = rateLimitAdvisory
      ∧ (handle_user_input (fun _ => .error "HTTP 429 Too Many Requests") [] "hi").2.length
        = 1 := by
  have h := c1_ask_absorbs_errors (fun _ => .error "HTTP 429 Too Many Requests") [] "hi"
  exact ⟨h.2.2.1 "HTTP 429 Too Many Requests" rfl (by decide), h.1⟩

/-! ## DocumentLoader.load_from_url (loader.py lines 150-180) -/

/-- `DocumentLoader.load_from_url(url)` (loader.py lines 150-180).
`pdfLoad` models `load_online_pdf` (`OnlinePDFLoader(url).load()`) and
`htmlLoad` models `UnstructuredHTMLLoader(url).load()`; both are external
fetch capabilities that may raise.  The PDF branch is taken when
`url.lower().endswith('.pdf')` and sits OUTSIDE the try/except, so its
exceptions propagate; only the HTML branch catches exceptions and
degrades to `load_from_text(f"Failed to load content from {url}: {e}")`. -/
def load_from_url (pdfLoad htmlLoad : String → Except String (List Document))
    (url : String) : Except String (List Document) :=
  if strEndsWith (strToLower url) ".pdf" then
    pdfLoad url
  else
    match htmlLoad url with
    | .ok documents => .ok documents
    | .error e =>
      .ok (load_from_text ("Failed to load content from " ++ url ++ ": " ++ e) none)

/-- C4 counterexample: the claim says `load_from_url` never raises and
degrades any fetch failure — in either branch — to a single synthetic
Document.  But for a URL ending in `.pdf` whose remote fetch fails, the
call propagates the error instead of returning any Document list. -/
theorem c4_counterexample :
    load_from_url (fun _ => .error "connection refused") (fun _ => .ok [])
        "http://host/file.pdf"
      = .error "connection refused" := by
  rfl

/-- C4 amended: `load_from_url` treats a URL ending in `.pdf`
(case-insensitively) as a remote paginated document and delegates to the
online PDF loader with failures PROPAGATING to the caller; only for
non-PDF URLs is HTML extraction attempted with any failure degraded to a
single synthetic Document whose content records the failure reason (and
whose metadata carries the default `source = "user_input"`). -/
theorem c4_url_failure_handling
    (pdfLoad htmlLoad : String → Except String (List Document)) (url : String) :
    (strEndsWith (strToLower url) ".pdf" = true →
        load_from_url pdfLoad htmlLoad url = pdfLoad url)
      ∧ (strEndsWith (strToLower url) ".pdf" = false →
          ∀ docs, htmlLoad url = .ok docs →
            load_from_url pdfLoad htmlLoad url = .ok docs)
      ∧ (strEndsWith (strToLower url) ".pdf" = false →
          ∀ e, htmlLoad url = .error e →
            load_from_url pdfLoad htmlLoad url
              = .ok [{ page_content := "Failed to load content from " ++ url ++ ": " ++ e,
                       metadata := [("source", "user_input")] }]) := by
  refine ⟨?_, ?_, ?_⟩
  · intro hpdf
    unfold load_from_url
    rw [if_pos hpdf]
  · intro hpdf docs hok
    unfold load_from_url
    rw [if_neg (by rw [hpdf]; exact Bool.false_ne_true)]
    rw [hok]
  · intro hpdf e herr
    unfold load_from_url
    rw [if_neg (by rw [hpdf]; exact Bool.false_ne_true)]
    rw [herr]
    rfl

/-- C4 witness: for the non-PDF URL `"http://host/page"` with a failing
HTML fetch, `load_from_url` returns the single placeholder Document. -/
theorem c4_url_failure_handling_witness :
    load_from_url (fun _ => .ok []) (fun _ => .error "boom") "http://host/page"
      = .ok [{ page_content := "Failed to load content from http://host/page: boom",
               metadata := [("source", "user_input")] }] :=
  (c4_url_failure_handling (fun _ => .ok []) (fun _ => .error "boom")
      "http://host/page").2.2 (by decide) "boom" rfl

/-! ## Chunker (spec section 4.2)

`DocumentLoader.split_documents` (loader.py lines 182-192) delegates to
langchain's `RecursiveCharacterTextSplitter(chunk_size, chunk_overlap)`
(loader.py lines 23-29), whose code is a third-party library outside this
repository's sources.  The chunking algorithm below is therefore modelled
from the spec's own description. -/

/-- Modelled from the spec: a paragraph boundary (the spec's first
preference for a cut). -/
def isParagraphSep (c : Char) : Bool := c == '\n'

/-- Modelled from the spec: a sentence boundary (second preference). -/
def isSentenceSep (c : Char) : Bool := c == '.'

/-- Modelled from the spec: whitespace (third preference). -/
def isSpaceSep (c : Char) : Bool := c == ' '

/-- Modelled from the spec: scan the window for the last cut position `p`
(cut after `p` characters) such that the character before the cut is a
separator and the cut lies strictly beyond the overlap `O` (so the next
chunk's start advances).  `pos` is the index of the head of the remaining
window. -/
def lastSepPosAux (sep : Char → Bool) (O : Nat) : List Char → Nat → Option Nat
  | [], _ => none
  | c :: rest, pos =>
    match lastSepPosAux sep O rest (pos + 1) with
    | some p => some p
    | none => if sep c && decide (O < pos + 1) then some (pos + 1) else none

/-- Modelled from the spec: last usable cut position in the window for a
given separator class. -/
def lastSepPos (sep : Char → Bool) (O : Nat) (w : List Char) : Option Nat :=
  lastSepPosAux sep O w 0

/-- Modelled from the spec (section 4.2): the cut point for a full window
`w` of `chunk_size = S` characters: the last paragraph boundary in the
window, else the last sentence boundary, else the last whitespace, else a
hard character cut at `S`. -/
def cutLen (S O : Nat) (w : List Char) : Nat :=
  match lastSepPos isParagraphSep O w with
  | some p => p
  | none =>
    match lastSepPos isSentenceSep O w with
    | some p => p
    | none =>
      match lastSepPos isSpaceSep O w with
      | some p => p
      | none => S

/-- Modelled from the spec (section 4.2): greedily accumulate up to
`chunk_size = S` characters, cut at the preferred boundary, and start the
next chunk `chunk_overlap = O` characters before the previous cut point.
`fuel` bounds the recursion; `splitUnit` supplies enough fuel for the
whole text.  An empty unit produces zero chunks; a remainder of at most
`S` characters is the final chunk. -/
def buildChunks (S O : Nat) : Nat → List Char → List (List Char)
  | 0, _ => []
  | fuel + 1, rem =>
    if rem = [] then []
    else if rem.length ≤ S then [rem]
    else
      rem.take (cutLen S O (rem.take S)) ::
        buildChunks S O fuel (rem.drop (cutLen S O (rem.take S) - O))

/-- Modelled from the spec: split one Document Unit's text into chunks. -/
def splitUnit (S O : Nat) (text : List Char) : List (List Char) :=
  buildChunks S O text.length text

/-- `DocumentLoader.split_documents(documents)` (loader.py lines 182-192):
chunk every unit, chunks inheriting their parent's metadata; unit order
then intra-unit order is preserved. -/
def split_documents (S O : Nat) (documents : List Document) : List Document :=
  documents.flatMap (fun d =>
    (splitUnit S O d.page_content.toList).map
      (fun cs => { page_content := String.mk cs, metadata := d.metadata }))

/-- Consecutive chunks overlap: the suffix of the earlier chunk of length
at most `O` equals the prefix of the later chunk of the same length. -/
def adjOverlap (O : Nat) : List (List Char) → Prop
  | [] => True
  | [_] => True
  | a :: b :: rest => a.drop (a.length - O) = b.take O ∧ adjOverlap O (b :: rest)

theorem lastSepPosAux_bound (sep : Char → Bool) (O : Nat) :
    ∀ (w : List Char) (pos p : Nat), lastSepPosAux sep O w pos = some p →
      O < p ∧ p ≤ pos + w.length := by
  intro w
  induction w with
  | nil =>
    intro pos p h
    exact absurd h (by simp [lastSepPosAux])
  | cons c rest ih =>
    intro pos p h
    unfold lastSepPosAux at h
    cases hrec : lastSepPosAux sep O rest (pos + 1) with
    | some q =>
      rw [hrec] at h
      simp only [Option.some.injEq] at h
      obtain rfl := h
      have hb := ih (pos + 1) q hrec
      refine ⟨hb.1, ?_⟩
      simp only [List.length_cons]
      omega
    | none =>
      rw [hrec] at h
      by_cases hs : (sep c && decide (O < pos + 1)) = true
      · rw [if_pos hs] at h
        simp only [Option.some.injEq] at h
        subst h
        have hO : O < pos + 1 := of_decide_eq_true (Bool.and_elim_right hs)
        refine ⟨hO, ?_⟩
        simp only [List.length_cons]
        omega
      · rw [if_neg hs] at h
        exact absurd h (by simp)

theorem cutLen_bounds (S O : Nat) (w : List Char) (hOS : O < S)
    (hw : w.length ≤ S) : O < cutLen S O w ∧ cutLen S O w ≤ S := by
  unfold cutLen lastSepPos
  split
  · rename_i p hp
    have hb := lastSepPosAux_bound _ _ w 0 p hp
    omega
  · split
    · rename_i p hp
      have hb := lastSepPosAux_bound _ _ w 0 p hp
      omega
    · split
      · rename_i p hp
        have hb := lastSepPosAux_bound _ _ w 0 p hp
        omega
      · exact ⟨hOS, Nat.le_refl S⟩

theorem buildChunks_chunk_length (S O : Nat) (hOS : O < S) :
    ∀ (fuel : Nat) (rem ch : List Char), ch ∈ buildChunks S O fuel rem →
      ch.length ≤ S := by
  intro fuel
  induction fuel with
  | zero =>
    intro rem ch h
    exact absurd h (by simp [buildChunks])
  | succ f ih =>
    intro rem ch h
    unfold buildChunks at h
    by_cases hne : rem = []
    · rw [if_pos hne] at h
      exact absurd h (by simp)
    · rw [if_neg hne] at h
      by_cases hlen : rem.length ≤ S
      · rw [if_pos hlen] at h
        simp only [List.mem_singleton] at h
        subst h
        exact hlen
      · rw [if_neg hlen] at h
        have hS : (rem.take S).length ≤ S := by
          rw [List.length_take]
          omega
        have hc := cutLen_bounds S O (rem.take S) hOS hS
        rcases List.mem_cons.mp h with h | h
        · subst h
          rw [List.length_take]
          omega
        · exact ih _ ch h

theorem buildChunks_head_take (S O : Nat) (hOS : O < S) (f : Nat)
    (rem : List Char) (hne : rem ≠ []) :
    ∃ h t, buildChunks S O (f + 1) rem = h :: t ∧ h.take O = rem.take O := by
  unfold buildChunks
  rw [if_neg hne]
  by_cases hlen : rem.length ≤ S
  · rw [if_pos hlen]
    exact ⟨rem, [], rfl, rfl⟩
  · rw [if_neg hlen]
    refine ⟨_, _, rfl, ?_⟩
    have hS : (rem.take S).length ≤ S := by
      rw [List.length_take]
      omega
    have hc := cutLen_bounds S O (rem.take S) hOS hS
    rw [List.take_take, Nat.min_eq_left (Nat.le_of_lt hc.1)]

theorem buildChunks_adjOverlap (S O : Nat) (hOS : O < S) :
    ∀ (fuel : Nat) (rem : List Char), adjOverlap O (buildChunks S O fuel rem) := by
  intro fuel
  induction fuel with
  | zero =>
    intro rem
    exact trivial
  | succ f ih =>
    intro rem
    unfold buildChunks
    by_cases hne : rem = []
    · rw [if_pos hne]
      exact trivial
    · rw [if_neg hne]
      by_cases hlen : rem.length ≤ S
      · rw [if_pos hlen]
        exact trivial
      · rw [if_neg hlen]
        have hS : (rem.take S).length ≤ S := by
          rw [List.length_take]
          omega
        have hc := cutLen_bounds S O (rem.take S) hOS hS
        cases f with
        | zero => exact trivial
        | succ f' =>
          have hrem'ne : rem.drop (cutLen S O (rem.take S) - O) ≠ [] := by
            intro hnil
            have hdl : (rem.drop (cutLen S O (rem.take S) - O)).length
                = rem.length - (cutLen S O (rem.take S) - O) := List.length_drop _ _
            rw [hnil] at hdl
            simp only [List.length_nil] at hdl
            omega
          obtain ⟨h, t, hbc, hht⟩ := buildChunks_head_take S O hOS f' _ hrem'ne
          rw [hbc]
          refine ⟨?_, ?_⟩
          · have hclen : (rem.take (cutLen S O (rem.take S))).length
                = cutLen S O (rem.take S) := by
              rw [List.length_take]
              omega
            rw [hclen, List.drop_take]
            have hsub : cutLen S O (rem.take S) - (cutLen S O (rem.take S) - O) = O := by
              omega
            rw [hsub]
            exact hht.symm
          · rw [← hbc]
            exact ih _

/-- C2: for chunk_overlap `O` strictly less than chunk_size `S`, every
chunk produced by splitting a sequence of Document Units has content
length at most `S` characters, and any two consecutive chunks from the
same unit overlap: a suffix of the first chunk of length at most `O`
equals a prefix of the second chunk (the overlap is never longer than
`O`). -/
theorem c2_chunk_size_and_overlap (S O : Nat) (documents : List Document)
    (hOS : O < S) :
    (∀ ch ∈ split_documents S O documents, ch.page_content.length ≤ S)
      ∧ ∀ d ∈ documents, adjOverlap O (splitUnit S O d.page_content.toList) := by
  constructor
  · intro ch hch
    simp only [split_documents, List.mem_flatMap, List.mem_map] at hch
    obtain ⟨d, hd, cs, hcs, rfl⟩ := hch
    show (String.mk cs).length ≤ S
    have hmk : (String.mk cs).length = cs.length := rfl
    rw [hmk]
    exact buildChunks_chunk_length S O hOS _ _ cs hcs
  · intro d hd
    exact buildChunks_adjOverlap S O hOS _ _

/-- C2 witness: with `S = 5`, `O = 2` on the ten-character unit
`"abcdefghij"` the chunks are `"abcde"`, `"defgh"`, `"ghij"`; each has
length at most 5 and consecutive chunks share an overlap of 2. -/
theorem c2_chunk_size_and_overlap_witness :
    2 < 5 ∧ adjOverlap 2 (splitUnit 5 2 (String.toList "abcdefghij")) :=
  ⟨by decide,
   (c2_chunk_size_and_overlap 5 2
       [{ page_content := "abcdefghij", metadata := [("source", "t")] }]
       (by decide)).2
     { page_content := "abcdefghij", metadata := [("source", "t")] }
     (List.mem_singleton.mpr rfl)⟩

/-! ## EmbeddingManager vector store (embeddings.py lines 96-172)

The store itself is FAISS plus the local filesystem, both outside this
repository's sources, so the index contents, the similarity query and
the persistence medium are modelled from the spec (sections 3, 4.3, 6):
an index is the set of (vector, chunk) pairs with a fixed dimensionality,
`save_local` writes a flat vector file plus the chunk docstore, and the
medium maps directory locations to such blobs. -/

/-- Modelled from the spec: a built Vector Index — fixed dimensionality
`dim`, one vector per chunk, vectors as fixed-length numeric arrays. -/
structure VIndex where
  dim : Nat
  vectors : List (List Int)
  chunks : List Document
  deriving DecidableEq, Repr

/-- Modelled from the spec: every vector of a built index has the index's
fixed dimensionality, which is positive. -/
def VIndex.wellFormed (I : VIndex) : Prop :=
  0 < I.dim ∧ ∀ v ∈ I.vectors, v.length = I.dim

/-- Modelled from the spec: the serialized blob a save writes at a
location — dimensionality, the vectors flattened into one numeric file
(as FAISS stores them), and the chunk docstore. -/
structure StoreBlob where
  dim : Nat
  flat : List Int
  chunks : List Document
  deriving DecidableEq, Repr

/-- Modelled from the spec: the persistence medium, a mapping from
directory locations to blobs (newest write first). -/
def Medium : Type := List (String × StoreBlob)

/-- Modelled from the spec: `exists(location)` / `read(location)` of the
persistence medium. -/
def mediumRead : Medium → String → Option StoreBlob
  | [], _ => none
  | (loc, blob) :: rest, directory =>
    if loc = directory then some blob else mediumRead rest directory

/-- Rebuild the list of `dim`-sized vectors from the flat numeric file;
`fuel` bounds the recursion. -/
def unflattenAux (dim : Nat) : Nat → List Int → List (List Int)
  | 0, _ => []
  | _ + 1, [] => []
  | fuel + 1, x :: rest =>
    (x :: rest).take dim :: unflattenAux dim fuel ((x :: rest).drop dim)

/-- Rebuild vectors from the flat file. -/
def unflatten (dim : Nat) (flat : List Int) : List (List Int) :=
  unflattenAux dim flat.length flat

/-- `EmbeddingManager.save_vector_store(vectorstore, directory)`
(embeddings.py lines 139-156): create the directory if needed, write the
serialized index there (`save_local`), return the directory. -/
def save_vector_store (vectorstore : VIndex) (directory : String)
    (medium : Medium) : String × Medium :=
  (directory,
   (directory,
    { dim := vectorstore.dim,
      flat := vectorstore.vectors.flatten,
      chunks := vectorstore.chunks }) :: medium)

/-- `EmbeddingManager.load_vector_store(directory)` (embeddings.py lines
158-172): if the directory does not exist raise
`FileNotFoundError(f"Vector store directory {directory} not found")`,
otherwise deserialize the stored index (`FAISS.load_local`). -/
def load_vector_store (directory : String) (medium : Medium) :
    Except String VIndex :=
  match mediumRead medium directory with
  | none => .error ("Vector store directory " ++ directory ++ " not found")
  | some blob =>
    .ok { dim := blob.dim, vectors := unflatten blob.dim blob.flat,
          chunks := blob.chunks }

/-- Modelled from the spec: similarity score between two vectors (inner
product; any fixed similarity works for the round-trip claim). -/
def dotProduct (a b : List Int) : Int :=
  (a.zip b).foldl (fun s p => s + p.1 * p.2) 0

/-- Insert a scored chunk into a descending-sorted list, keeping earlier
(original-order) entries first on ties. -/
def insertRanked (x : Int × Document) :
    List (Int × Document) → List (Int × Document)
  | [] => [x]
  | y :: rest =>
    if x.1 ≤ y.1 then y :: insertRanked x rest else x :: y :: rest

/-- Stable descending sort by score. -/
def rankDesc : List (Int × Document) → List (Int × Document)
  | [] => []
  | x :: rest => insertRanked x (rankDesc rest)

/-- Modelled from the spec: `query(index, question, top_k)` — embed the
question (`embed`, the external embedding capability), score every
(vector, chunk) entry, rank by descending similarity with ties broken by
original chunk order, and return the top `k` chunks. -/
def queryIndex (embed : String → List Int) (I : VIndex) (question : String)
    (k : Nat) : List Document :=
  let qv := embed question
  let scored := (I.vectors.zip I.chunks).map (fun p => (dotProduct p.1 qv, p.2))
  ((rankDesc scored).take k).map (fun p => p.2)

theorem unflatten_flatten (dim : Nat) (hdim : 0 < dim) :
    ∀ (vs : List (List Int)), (∀ v ∈ vs, v.length = dim) →
      ∀ fuel, vs.flatten.length ≤ fuel →
        unflattenAux dim fuel vs.flatten = vs := by
  intro vs
  induction vs with
  | nil =>
    intro _ fuel _
    cases fuel with
    | zero => rfl
    | succ f => rfl
  | cons v rest ih =>
    intro hlen fuel hfuel
    have hv : v.length = dim := hlen v (List.mem_cons_self v rest)
    have hrest : ∀ u ∈ rest, u.length = dim := by
      intro u hu
      exact hlen u (List.mem_cons_of_mem v hu)
    have hflat : (v :: rest).flatten = v ++ rest.flatten := rfl
    rw [hflat] at hfuel ⊢
    have hlenapp : (v ++ rest.flatten).length = dim + rest.flatten.length := by
      rw [List.length_append, hv]
    cases fuel with
    | zero =>
      rw [hlenapp] at hfuel
      omega
    | succ f =>
      have hfuel' : rest.flatten.length ≤ f := by
        rw [hlenapp] at hfuel
        omega
      cases v with
      | nil =>
        simp only [List.length_nil] at hv
        omega
      | cons x xs =>
        have hcons : (x :: xs) ++ rest.flatten = x :: (xs ++ rest.flatten) := rfl
        rw [hcons]
        show (x :: (xs ++ rest.flatten)).take dim
            :: unflattenAux dim f ((x :: (xs ++ rest.flatten)).drop dim)
          = (x :: xs) :: rest
        rw [← hcons, List.take_left' hv, List.drop_left' hv]
        rw [ih hrest f hfuel']

/-- C5: loading the index saved at a location yields an index whose query
results — including ranking order — equal those of the original, for
every question and every k (round-trip through `save_vector_store` /
`load_vector_store`). -/
theorem c5_save_load_roundtrip (I : VIndex) (directory : String)
    (medium : Medium) (hwf : I.wellFormed) :
    load_vector_store directory (save_vector_store I directory medium).2 = .ok I
      ∧ ∀ (embed : String → List Int) (question : String) (k : Nat) (J : VIndex),
          load_vector_store directory (save_vector_store I directory medium).2
            = .ok J →
          queryIndex embed J question k = queryIndex embed I question k := by
  have hunf : unflatten I.dim I.vectors.flatten = I.vectors :=
    unflatten_flatten I.dim hwf.1 I.vectors hwf.2 _ (Nat.le_refl _)
  have hload : load_vector_store directory
      (save_vector_store I directory medium).2 = .ok I := by
    show load_vector_store directory
        ((directory, { dim := I.dim, flat := I.vectors.flatten,
                       chunks := I.chunks }) :: medium) = .ok I
    unfold load_vector_store mediumRead
    rw [if_pos rfl]
    show Except.ok { dim := I.dim, vectors := unflatten I.dim I.vectors.flatten,
                     chunks := I.chunks } = Except.ok I
    rw [hunf]
  refine ⟨hload, ?_⟩
  intro embed question k J hJ
  rw [hload] at hJ
  simp only [Except.ok.injEq] at hJ
  rw [hJ]

/-- C5 witness: a concrete two-entry index round-trips through an empty
medium at location "vectorstore". -/
theorem c5_save_load_roundtrip_witness :
    load_vector_store "vectorstore"
        (save_vector_store
          { dim := 2, vectors := [[1, 0], [0, 1]],
            chunks := [{ page_content := "a", metadata := [("source", "s")] },
                       { page_content := "b", metadata := [("source", "s")] }] }
          "vectorstore" []).2
      = .ok { dim := 2, vectors := [[1, 0], [0, 1]],
              chunks := [{ page_content := "a", metadata := [("source", "s")] },
                         { page_content := "b", metadata := [("source", "s")] }] } :=
  (c5_save_load_roundtrip
      { dim := 2, vectors := [[1, 0], [0, 1]],
        chunks := [{ page_content := "a", metadata := [("source", "s")] },
                   { page_content := "b", metadata := [("source", "s")] }] }
      "vectorstore" [] (by constructor <;> decide)).1

/-- C6: `load_vector_store` on a location that does not exist on the
medium fails with the `FileNotFoundError` message naming the directory
and returns no index; on a location that exists, the existence check
passes and an index is returned. -/
theorem c6_load_missing_location (directory : String) (medium : Medium) :
    (mediumRead medium directory = none →
        load_vector_store directory medium
            = .error ("Vector store directory " ++ directory ++ " not found")
          ∧ ∀ J : VIndex, load_vector_store directory medium ≠ .ok J)
      ∧ ∀ blob, mediumRead medium directory = some blob →
          ∃ J, load_vector_store directory medium = .ok J := by
  constructor
  · intro h
    have herr : load_vector_store directory medium
        = .error ("Vector store directory " ++ directory ++ " not found") := by
      unfold load_vector_store
      rw [h]
    refine ⟨herr, ?_⟩
    intro J hJ
    rw [herr] at hJ
    exact Except.noConfusion hJ
  · intro blob h
    refine ⟨{ dim := blob.dim, vectors := unflatten blob.dim blob.flat,
              chunks := blob.chunks }, ?_⟩
    unfold load_vector_store
    rw [h]

/-- C6 witness: the empty medium misses "vectorstore" and load fails with
the not-found error; a medium holding a blob at "vectorstore" loads. -/
theorem c6_load_missing_location_witness :
    load_vector_store "vectorstore" []
        = .error ("Vector store directory " ++ "vectorstore" ++ " not found")
      ∧ ∃ J, load_vector_store "vectorstore"
          [("vectorstore", { dim := 1, flat := [0], chunks := [] })] = .ok J :=
  ⟨((c6_load_missing_location "vectorstore" []).1 rfl).1,
   (c6_load_missing_location "vectorstore"
       [("vectorstore", { dim := 1, flat := [0], chunks := [] })]).2
     { dim := 1, flat := [0], chunks := [] } rfl⟩

/-! ## QAChain memory and the Clear Chat History button (C8) -/

/-- The conversational retrieval chain held in
`st.session_state.conversation`: it owns the
`ConversationBufferWindowMemory` created in `QAChain.__init__`
(qa_chain.py lines 39-44, `memory_k = 5` by default) and the retriever
over the bound vector store (`create_chain`, lines 52-69). -/
structure ConvChain where
  memory : List (String × String)
  memory_k : Nat
  vectorstore : VIndex
  deriving DecidableEq, Repr

/-- The Streamlit session state used by `handle_user_input`: the display
list `st.session_state.chat_history` and the chain
`st.session_state.conversation`. -/
structure SessionState where
  chat_history : List (String × String)
  conversation : Option ConvChain
  deriving DecidableEq, Repr

/-- Calling the conversational retrieval chain
(`st.session_state.conversation({"question": q})`): retrieval plus
generation are abstracted into `gen`; the chain saves the new turn into
its own window memory. -/
def chainCall (gen : String → String) (ch : ConvChain) (q : String) :
    String × ConvChain :=
  (gen q, { ch with memory := ch.memory ++ [(q, gen q)] })

/-- The generation context for the next request: the last `memory_k`
turns of the chain's window memory (the `k` of
`ConversationBufferWindowMemory`). -/
def genContext (s : SessionState) : List (String × String) :=
  match s.conversation with
  | none => []
  | some ch => ch.memory.drop (ch.memory.length - ch.memory_k)

/-- The success path of one ask (app.py lines 191-198): call the chain
and append the turn to the display history. -/
def askSuccess (gen : String → String) (s : SessionState) (q : String) :
    SessionState :=
  match s.conversation with
  | none => s
  | some ch =>
    { chat_history := s.chat_history ++ [(q, (chainCall gen ch q).1)],
      conversation := some (chainCall gen ch q).2 }

/-- The Clear Chat History button (app.py lines 215-217): it runs
`st.session_state.chat_history = []` and nothing else. -/
def clearChatHistory (s : SessionState) : SessionState :=
  { s with chat_history := [] }

/-- C8 counterexample: the claim says reset clears the conversation
history INCLUDING the history used as generation context.  After two
successful asks, clearing the chat history leaves the chain's window
memory — the generation context of subsequent asks — non-empty. -/
theorem c8_counterexample :
    genContext (clearChatHistory (askSuccess (fun _ => "ans")
        (askSuccess (fun _ => "ans")
          { chat_history := [],
            conversation := some { memory := [], memory_k := 5,
                                   vectorstore := { dim := 1, vectors := [],
                                                    chunks := [] } } }
          "q1")
        "q2"))
      = [("q1", "ans"), ("q2", "ans")] := by
  rfl

/-- C8 amended: the explicit reset (the Clear Chat History button) clears
the displayed conversation history back to empty and leaves the bound
conversation chain — and with it the vector index it retrieves from —
unchanged; in particular the chain's window memory, the history used as
generation context for subsequent asks, is NOT cleared: the generation
context after the reset equals the one before it. -/
theorem c8_clear_history_frame (s : SessionState) :
    (clearChatHistory s).chat_history = []
      ∧ (clearChatHistory s).conversation = s.conversation
      ∧ genContext (clearChatHistory s) = genContext s := by
  exact ⟨rfl, rfl, rfl⟩

/-! ## PDFQAApp.__init__ and setup_ui (app.py lines 15-48, C9) -/

/-- The parameter names `QAChain.__init__` declares (qa_chain.py line
14): `model_repo_id`, `temperature`, `max_length`, `memory_k` — and no
`llm` and no kwargs catch-all. -/
def qaChainInitKeywords : List String :=
  ["model_repo_id", "temperature", "max_length", "memory_k"]

/-- Python keyword-argument binding for `QAChain.__init__`: a call whose
keyword arguments are not all among the declared parameter names raises
`TypeError` before the constructor body runs. -/
def callQAChainInit (kwargs : List String) : Except String Unit :=
  match kwargs.find? (fun k => !(qaChainInitKeywords.contains k)) with
  | some k => .error ("__init__() got an unexpected keyword argument " ++ k)
  | none => .ok ()

/-- The application object after `PDFQAApp.__init__`: only the `error`
attribute matters for the claims (None on success, the stringified
exception otherwise). -/
structure AppInit where
  error : Option String
  deriving DecidableEq, Repr

/-- `PDFQAApp.__init__` (app.py lines 15-37): the whole body is wrapped
in try/except.  `TogetherAIManager()`, `get_llm()` and
`EmbeddingManager()` are external fallible steps; `DocumentLoader()`
cannot fail; the call `QAChain(llm=llm)` (line 27) passes the single
keyword argument `llm`.  Any exception is caught and stored as a string
in `self.error`; on success `self.error` is set to None. -/
def pdfQAAppInit (togetherInit llmGet embInit : Except String Unit) : AppInit :=
  match togetherInit with
  | .error e => { error := some e }
  | .ok _ =>
    match llmGet with
    | .error e => { error := some e }
    | .ok _ =>
      match embInit with
      | .error e => { error := some e }
      | .ok _ =>
        match callQAChainInit ["llm"] with
        | .error e => { error := some e }
        | .ok _ => { error := none }

/-- `PDFQAApp.setup_ui` (app.py lines 39-48): under
`if hasattr(self, 'error') and self.error:` (Python truthiness, so an
empty string counts as unset) the error is displayed and False is
returned; otherwise the UI proceeds and True is returned. -/
def setupUiProceeds (a : AppInit) : Bool :=
  match a.error with
  | some e => if e = "" then true else false
  | none => true

/-- C9: `PDFQAApp.__init__` never lets an exception escape — it always
yields an application object, and because `QAChain(llm=llm)` passes a
keyword argument `QAChain.__init__` does not declare, the `TypeError` is
raised whenever execution reaches that call, so the error attribute is
set no matter how the earlier external steps fare; and whenever the
stored error is a (non-empty, hence truthy) string, `setup_ui` returns
false instead of proceeding. -/
theorem c9_init_error_branch (togetherInit llmGet embInit : Except String Unit) :
    (pdfQAAppInit togetherInit llmGet embInit).error.isSome = true
      ∧ callQAChainInit ["llm"]
        = .error "__init__() got an unexpected keyword argument llm"
      ∧ (pdfQAAppInit (.ok ()) (.ok ()) (.ok ())).error
        = some "__init__() got an unexpected keyword argument llm"
      ∧ ∀ e, (pdfQAAppInit togetherInit llmGet embInit).error = some e → e ≠ "" →
          setupUiProceeds (pdfQAAppInit togetherInit llmGet embInit) = false := by
  have hsome : (pdfQAAppInit togetherInit llmGet embInit).error.isSome = true := by
    cases togetherInit with
    | error e => rfl
    | ok u =>
      cases llmGet with
      | error e => rfl
      | ok u2 =>
        cases embInit with
        | error e => rfl
        | ok u3 => rfl
  refine ⟨hsome, rfl, rfl, ?_⟩
  intro e he hne
  unfold setupUiProceeds
  rw [he]
  exact if_neg hne

/-- C9 witness: with every external step succeeding, initialization still
stores the `TypeError` from `QAChain(llm=llm)` and `setup_ui` refuses to
proceed. -/
theorem c9_init_error_branch_witness :
    setupUiProceeds (pdfQAAppInit (.ok ()) (.ok ()) (.ok ())) = false :=
  (c9_init_error_branch (.ok ()) (.ok ()) (.ok ())).2.2.2
    "__init__() got an unexpected keyword argument llm" rfl (by decide)
